import Mathlib

/-!
# ChromoDB: a shallow embedding of the storage engine and command layer

This file embeds, in Lean 4, the parts of the ChromoDB repository that the
verified claims are about:

* the `DataStructure` storage engine of `datastructure` (the linear-scan
  variant: `Delete`, `OpenDB`, `Put`, `writeDataRecord`, `Get`), working over
  a model of Go `os.File` handles (a byte list plus a seek position, with Go
  read/write/seek/truncate semantics on regular files);
* the `system` package's `Database.QueryParser` command dispatcher, its
  `StartTransaction` / `CommitTransaction` / `RollbackTransaction` mutex
  discipline, and the authentication step of `StartTCPTLSListener`.

Bytes are modelled as `Nat` (always < 256 in every concrete run), files as
`List Nat` with an explicit position, and `int64` / `uint32` fields as their
little-endian byte serializations.  Loops in the Go source (which advance a
file position until EOF) are modelled with explicit fuel; every call site
passes fuel large enough for the loop to hit EOF first.

The engines additionally record a journal of file-mutation events
(`FEv`) and the dispatcher a journal of lock/engine events (`SEv`); these
journals only record what the code does, in the order it does it, and let
theorems speak about write ordering and lock discipline.
-/

namespace Chromo

/-! ## Go `os.File` model -/

/-- A Go `*os.File`: the file's bytes plus the handle's seek position.
Read and write share one position, exactly as in Go. -/
structure GFile where
  data : List Nat
  pos : Nat
deriving Repr, DecidableEq

/-- File size in bytes (`Stat().Size()`). -/
def GFile.size (f : GFile) : Nat := f.data.length

/-- `f.Read(buf)` with `len(buf) = n`: the buffer is zero-initialized
(Go `make`); at or past EOF the read returns `io.EOF` (third component
`true`); otherwise it reads the available bytes (up to `n`), leaves the
rest of the buffer zero, returns no error, and advances the position by the
number of bytes read.  A zero-length read returns no error. -/
def GFile.read (f : GFile) (n : Nat) : List Nat × GFile × Bool :=
  if n = 0 then ([], f, false)
  else if f.data.length ≤ f.pos then (List.replicate n 0, f, true)
  else
    let k := min n (f.data.length - f.pos)
    ((f.data.drop f.pos).take k ++ List.replicate (n - k) 0,
      { f with pos := f.pos + k }, false)

/-- `f.Write(bs)`: writes at the current position, zero-filling any hole
between EOF and the position, and advances the position.  Writing zero
bytes changes nothing. -/
def GFile.write (f : GFile) (bs : List Nat) : GFile :=
  if bs.isEmpty then f
  else
    { data := f.data.take f.pos ++ List.replicate (f.pos - f.data.length) 0
        ++ bs ++ f.data.drop (f.pos + bs.length),
      pos := f.pos + bs.length }

/-- `f.Seek(n, io.SeekStart)`. -/
def GFile.seekStart (f : GFile) (n : Nat) : GFile := { f with pos := n }

/-- `f.Seek(d, io.SeekCurrent)` for a nonnegative delta. -/
def GFile.seekCur (f : GFile) (d : Nat) : GFile := { f with pos := f.pos + d }

/-- `f.Seek(0, io.SeekEnd)`. -/
def GFile.seekEnd (f : GFile) : GFile := { f with pos := f.data.length }

/-- `f.Truncate(n)` (Go leaves the seek position unchanged). -/
def GFile.truncate (f : GFile) (n : Nat) : GFile := { f with data := f.data.take n }

/-- Little-endian `uint32` serialization (`binary.Write` with `binary.LittleEndian`). -/
def u32le (n : Nat) : List Nat :=
  [n % 256, n / 256 % 256, n / 256 ^ 2 % 256, n / 256 ^ 3 % 256]

/-- Little-endian `int64` serialization of a nonnegative offset. -/
def i64le (n : Nat) : List Nat :=
  [n % 256, n / 256 % 256, n / 256 ^ 2 % 256, n / 256 ^ 3 % 256,
   n / 256 ^ 4 % 256, n / 256 ^ 5 % 256, n / 256 ^ 6 % 256, n / 256 ^ 7 % 256]

/-- Value of a little-endian byte string. -/
def leVal (bs : List Nat) : Nat := bs.foldr (fun b acc => b + 256 * acc) 0

/-- `binary.Read(f, binary.LittleEndian, &x)` for an `int64` `x`: reads
exactly 8 bytes via `io.ReadFull`, failing (`none`) when fewer than 8 bytes
remain before EOF. -/
def GFile.readI64 (f : GFile) : Option Nat × GFile :=
  if f.pos + 8 ≤ f.data.length then
    (some (leVal ((f.data.drop f.pos).take 8)), { f with pos := f.pos + 8 })
  else
    (none, { f with pos := max f.pos f.data.length })

/-- `binary.Read(f, binary.LittleEndian, &x)` for a `uint32` `x`. -/
def GFile.readU32 (f : GFile) : Option Nat × GFile :=
  if f.pos + 4 ≤ f.data.length then
    (some (leVal ((f.data.drop f.pos).take 4)), { f with pos := f.pos + 4 })
  else
    (none, { f with pos := max f.pos f.data.length })

/-! ## The storage engine (`datastructure` package, linear-scan variant) -/

/-- A file-mutation event: which file was written (or truncated), at what
position, with which bytes.  Recorded in source order. -/
inductive FEv
  | dWrite (pos : Nat) (bs : List Nat)
  | iWrite (pos : Nat) (bs : List Nat)
  | iTrunc (n : Nat)
deriving Repr, DecidableEq

/-- Decidable equality for `Except` results, for evaluation in theorems. -/
instance instDecEqExcept {ε α : Type} [DecidableEq ε] [DecidableEq α] :
    DecidableEq (Except ε α) := fun a b =>
  match a, b with
  | Except.ok x, Except.ok y =>
    if h : x = y then isTrue (by rw [h]) else isFalse (by simp [h])
  | Except.error e, Except.error f =>
    if h : e = f then isTrue (by rw [h]) else isFalse (by simp [h])
  | Except.ok _, Except.error _ => isFalse (by simp)
  | Except.error _, Except.ok _ => isFalse (by simp)

/-- Errors surfaced by the engine (`error` values in Go). -/
inductive DBErr
  | keyNotFound
  | ioErr
  | badSequence
  | nonexistentCommand
deriving Repr, DecidableEq

/-- The ChromoDB database structure: data-file handle, index-file handle and
the `nextOffset` field, plus the journal of file mutations. -/
structure DataStructure where
  dataFile : GFile
  indexFile : GFile
  nextOffset : Nat
  events : List FEv
deriving Repr, DecidableEq

/-- Write to the data file at its current position, journalling the event. -/
def DataStructure.writeData (db : DataStructure) (bs : List Nat) : DataStructure :=
  { db with dataFile := db.dataFile.write bs,
            events := db.events ++ [FEv.dWrite db.dataFile.pos bs] }

/-- Write to the index file at its current position, journalling the event. -/
def DataStructure.writeIdx (db : DataStructure) (bs : List Nat) : DataStructure :=
  { db with indexFile := db.indexFile.write bs,
            events := db.events ++ [FEv.iWrite db.indexFile.pos bs] }

/-- `writeDataRecord` writes, at the data file's current position: key
length (`uint32`), value length (`uint32`), key bytes, value bytes, and the
`offset` parameter as a trailing `int64` — five consecutive writes, exactly
as the Go method. -/
def DataStructure.writeDataRecord (db : DataStructure) (offset : Nat)
    (key value : List Nat) : DataStructure :=
  ((((db.writeData (u32le key.length)).writeData
      (u32le value.length)).writeData key).writeData value).writeData (i64le offset)

/-- `OpenDB` on a pair of (possibly empty) existing files: `nextOffset` is
rehydrated from the data file's length; both positions start at 0. -/
def OpenDB (dataBytes indexBytes : List Nat) : DataStructure :=
  { dataFile := { data := dataBytes, pos := 0 },
    indexFile := { data := indexBytes, pos := 0 },
    nextOffset := dataBytes.length,
    events := [] }

/-- The scan loop of `Put`: read `len(key)` bytes from the index file; on
`io.EOF` break (`Sum.inr`, insert path); on a key match, read the entry's
offset, seek the data file there, overwrite the record in place with
`writeDataRecord`, return; otherwise skip the 8 offset bytes and loop. -/
def putLoop (fuel : Nat) (db : DataStructure) (key value : List Nat) :
    (DataStructure × Except DBErr Unit) ⊕ DataStructure :=
  match fuel with
  | 0 => Sum.inl (db, Except.error DBErr.ioErr)
  | fuel + 1 =>
    let r := db.indexFile.read key.length
    if r.2.2 then Sum.inr { db with indexFile := r.2.1 }
    else
      let db1 := { db with indexFile := r.2.1 }
      if r.1 = key then
        match db1.indexFile.readI64 with
        | (none, f2) => Sum.inl ({ db1 with indexFile := f2 }, Except.error DBErr.ioErr)
        | (some off, f2) =>
          let db2 := { db1 with indexFile := f2 }
          let db3 := { db2 with dataFile := db2.dataFile.seekStart off }
          Sum.inl (db3.writeDataRecord off key value, Except.ok ())
      else
        putLoop fuel { db1 with indexFile := db1.indexFile.seekCur 8 } key value

/-- `Put` (linear-scan variant): seek the index to 0 and scan for the key.
If found, overwrite the data record in place at its recorded offset.  If
absent: write the key to the index file, take the data file's end as the
new offset, write that offset to the index file, then write the record to
the data file. -/
def DataStructure.Put (db : DataStructure) (key value : List Nat) :
    DataStructure × Except DBErr Unit :=
  let db0 := { db with indexFile := db.indexFile.seekStart 0 }
  match putLoop (db0.indexFile.data.length + 1) db0 key value with
  | Sum.inl r => r
  | Sum.inr db1 =>
    let db2 := db1.writeIdx key
    let off := db2.dataFile.data.length
    let db3 := { db2 with dataFile := db2.dataFile.seekEnd }
    let db4 := db3.writeIdx (i64le off)
    (db4.writeDataRecord off key value, Except.ok ())

/-- The scan loop of `Get`: read `len(key)` bytes; on EOF break with
key-not-found; on a match read the offset, seek the data file there, read
key length, value length, the key bytes, then the value bytes, and return
the value. -/
def getLoop (fuel : Nat) (db : DataStructure) (key : List Nat) :
    DataStructure × Except DBErr (List Nat) :=
  match fuel with
  | 0 => (db, Except.error DBErr.ioErr)
  | fuel + 1 =>
    let r := db.indexFile.read key.length
    if r.2.2 then (db, Except.error DBErr.keyNotFound)
    else
      let db1 := { db with indexFile := r.2.1 }
      if r.1 = key then
        match db1.indexFile.readI64 with
        | (none, f2) => ({ db1 with indexFile := f2 }, Except.error DBErr.ioErr)
        | (some off, f2) =>
          let db2 := { db1 with
            indexFile := f2
            dataFile := db1.dataFile.seekStart off }
          match db2.dataFile.readU32 with
          | (none, g1) => ({ db2 with dataFile := g1 }, Except.error DBErr.ioErr)
          | (some keyLength, g1) =>
            match GFile.readU32 g1 with
            | (none, g2) => ({ db2 with dataFile := g2 }, Except.error DBErr.ioErr)
            | (some valueLength, g2) =>
              let rk := GFile.read g2 keyLength
              if rk.2.2 then
                ({ db2 with dataFile := rk.2.1 }, Except.error DBErr.ioErr)
              else
                let rv := GFile.read rk.2.1 valueLength
                if rv.2.2 then
                  ({ db2 with dataFile := rv.2.1 }, Except.error DBErr.ioErr)
                else
                  ({ db2 with dataFile := rv.2.1 }, Except.ok rv.1)
      else
        getLoop fuel { db1 with indexFile := db1.indexFile.seekCur 8 } key

/-- `Get`: seek the index file to 0, then scan. -/
def DataStructure.Get (db : DataStructure) (key : List Nat) :
    DataStructure × Except DBErr (List Nat) :=
  let db0 := { db with indexFile := db.indexFile.seekStart 0 }
  getLoop (db0.indexFile.data.length + 1) db0 key

/-- The scan loop of `Delete`: accumulate every surviving entry
(`indexKey` bytes followed by the 8 offset bytes) into
`updatedIndexBuffer`; for the matching entry, read its offset, seek the
data file there, read key length and value length, and skip past the
record.  Breaks at EOF with the accumulated buffer. -/
def delLoop (fuel : Nat) (db : DataStructure) (key buf : List Nat) :
    (DataStructure × List Nat) ⊕ (DataStructure × DBErr) :=
  match fuel with
  | 0 => Sum.inr (db, DBErr.ioErr)
  | fuel + 1 =>
    let r := db.indexFile.read key.length
    if r.2.2 then Sum.inl ({ db with indexFile := r.2.1 }, buf)
    else
      let db1 := { db with indexFile := r.2.1 }
      if r.1 = key then
        match db1.indexFile.readI64 with
        | (none, f2) => Sum.inr ({ db1 with indexFile := f2 }, DBErr.ioErr)
        | (some off, f2) =>
          let db2 := { db1 with
            indexFile := f2
            dataFile := db1.dataFile.seekStart off }
          match db2.dataFile.readU32 with
          | (none, g1) => Sum.inr ({ db2 with dataFile := g1 }, DBErr.ioErr)
          | (some keyLength, g1) =>
            match GFile.readU32 g1 with
            | (none, g2) => Sum.inr ({ db2 with dataFile := g2 }, DBErr.ioErr)
            | (some valueLength, g2) =>
              let sz := 4 + 4 + keyLength + valueLength + 8
              delLoop fuel { db2 with dataFile := g2.seekCur sz } key buf
      else
        match db1.indexFile.readI64 with
        | (none, f2) => Sum.inr ({ db1 with indexFile := f2 }, DBErr.ioErr)
        | (some off, f2) =>
          delLoop fuel { db1 with indexFile := f2 } key (buf ++ r.1 ++ i64le off)

/-- `Delete` (linear-scan variant): seek the index to 0, scan copying the
surviving entries into a buffer, truncate the index file to 0, and write
the buffer back at the handle's current position.  Note: this variant
returns no error when the key is absent. -/
def DataStructure.Delete (db : DataStructure) (key : List Nat) :
    DataStructure × Except DBErr Unit :=
  let db0 := { db with indexFile := db.indexFile.seekStart 0 }
  match delLoop (db0.indexFile.data.length + 1) db0 key [] with
  | Sum.inr (db1, e) => (db1, Except.error e)
  | Sum.inl (db1, buf) =>
    let db2 := { db1 with indexFile := db1.indexFile.truncate 0,
                          events := db1.events ++ [FEv.iTrunc 0] }
    (db2.writeIdx buf, Except.ok ())

/-! ## Byte-string utilities used by the `system` package -/

/-- The bytes of an ASCII string literal. -/
def bytesOfStr (s : String) : List Nat := s.data.map Char.toNat

/-- ASCII decimal rendering of a natural number (Go `%d`). -/
def natDec (n : Nat) : List Nat := (Nat.toDigits 10 n).map Char.toNat

/-- `bytes.ToUpper` on one ASCII byte. -/
def toUpperByte (b : Nat) : Nat := if 97 ≤ b ∧ b ≤ 122 then b - 32 else b

/-- `bytes.ToUpper` (ASCII range; every byte in the modelled traffic is ASCII). -/
def goToUpper (bs : List Nat) : List Nat := bs.map toUpperByte

/-- ASCII whitespace, as recognized by `bytes.TrimSpace`. -/
def isSpaceByte (b : Nat) : Bool := b = 32 || (9 ≤ b && b ≤ 13)

/-- `bytes.TrimSpace` (ASCII range). -/
def trimSpace (bs : List Nat) : List Nat :=
  ((bs.dropWhile isSpaceByte).reverse.dropWhile isSpaceByte).reverse

/-- Index of the leftmost occurrence of `sep` in `s` (Go `bytes.Index` /
`strings.Index`), if any. -/
def findOcc : List Nat → List Nat → Option Nat
  | [], sep => if sep.isEmpty then some 0 else none
  | a :: as, sep =>
    if sep.isPrefixOf (a :: as) then some 0 else (findOcc as sep).map (· + 1)

/-- Fuelled worker for `goSplit`. -/
def goSplitF : Nat → List Nat → List Nat → List (List Nat)
  | 0, s, _ => [s]
  | fuel + 1, s, sep =>
    match findOcc s sep with
    | none => [s]
    | some i => s.take i :: goSplitF fuel (s.drop (i + sep.length)) sep

/-- `bytes.Split` / `strings.Split` for a nonempty separator: cut at every
leftmost occurrence of `sep`, left to right.  `s.length + 1` fuel always
suffices since each cut drops at least `sep.length ≥ 1` bytes. -/
def goSplit (s sep : List Nat) : List (List Nat) := goSplitF (s.length + 1) s sep

/-! ## The command dispatcher (`system` package) -/

/-- Lock/engine events of one `QueryParser` call: `lock` is
`StartTransaction` (`db.Mu.Lock()`), `unlock` is `CommitTransaction` or
`RollbackTransaction` (both `db.Mu.Unlock()`), `engOp` is an invocation of
the storage engine. -/
inductive SEv
  | lock
  | unlock
  | engOp
deriving Repr, DecidableEq

/-- Outcome of one `QueryParser` call: a result, a returned error, or a
runtime panic from dereferencing the nil `Mu` mutex pointer in
`StartTransaction`. -/
inductive QPOut
  | ok (res : List Nat)
  | err (e : DBErr)
  | panicNilMu
deriving Repr, DecidableEq

/-- The `system.Database` fields `QueryParser` depends on.  `mu` models the
`Mu *sync.Mutex` pointer: `none` is the nil zero value (no statement in the
source ever assigns `Mu`, so this is its value in every `Database` the
program builds), `some ()` a real mutex. -/
structure SysDB where
  ds : DataStructure
  mu : Option Unit
  currentMemoryUsage : Nat
deriving Repr, DecidableEq

/-- Result of a `QueryParser` call: updated database, outcome, and the
lock/engine events in execution order. -/
structure QPResult where
  db : SysDB
  out : QPOut
  sysEvents : List SEv
deriving Repr, DecidableEq

/-- `Database.QueryParser`: dispatch on the upper-cased query prefix
(`MEM`, `PUT`, `GET`, `DISK`, `DEL`, in source order), splitting arguments
on the bytes of the arrow delimiter.  `PUT`/`GET`/`DEL` call
`StartTransaction` first (a panic when `Mu` is nil) and release via
`RollbackTransaction`/`CommitTransaction` on their exit paths; the `DEL`
branch discards `Delete`'s error and reports success.  The `DISK` branch
stats the two store files (modelled by the engine's two file sizes). -/
def Database.QueryParser (db : SysDB) (query : List Nat) : QPResult :=
  let uq := goToUpper query
  if (bytesOfStr "MEM").isPrefixOf uq then
    { db := db,
      out := QPOut.ok (bytesOfStr "Current memory usage: "
        ++ natDec db.currentMemoryUsage ++ bytesOfStr " bytes"),
      sysEvents := [] }
  else if (bytesOfStr "PUT").isPrefixOf uq then
    match db.mu with
    | none => { db := db, out := QPOut.panicNilMu, sysEvents := [] }
    | some _ =>
      let opSpl := goSplit query (bytesOfStr "->")
      if opSpl.length ≠ 3 then
        { db := db, out := QPOut.err DBErr.badSequence,
          sysEvents := [SEv.lock, SEv.unlock] }
      else
        let r := db.ds.Put (trimSpace (opSpl.getD 1 [])) (trimSpace (opSpl.getD 2 []))
        match r.2 with
        | Except.error e =>
          { db := { db with ds := r.1 }, out := QPOut.err e,
            sysEvents := [SEv.lock, SEv.engOp, SEv.unlock] }
        | Except.ok _ =>
          { db := { db with ds := r.1 }, out := QPOut.ok (bytesOfStr "PUT SUCCESS"),
            sysEvents := [SEv.lock, SEv.engOp, SEv.unlock] }
  else if (bytesOfStr "GET").isPrefixOf uq then
    match db.mu with
    | none => { db := db, out := QPOut.panicNilMu, sysEvents := [] }
    | some _ =>
      let opSpl := goSplit query (bytesOfStr "->")
      if opSpl.length < 2 then
        { db := db, out := QPOut.err DBErr.badSequence,
          sysEvents := [SEv.lock, SEv.unlock] }
      else
        let r := db.ds.Get (trimSpace (opSpl.getD 1 []))
        match r.2 with
        | Except.error e =>
          { db := { db with ds := r.1 }, out := QPOut.err e,
            sysEvents := [SEv.lock, SEv.engOp, SEv.unlock] }
        | Except.ok res =>
          { db := { db with ds := r.1 }, out := QPOut.ok res,
            sysEvents := [SEv.lock, SEv.engOp, SEv.unlock] }
  else if (bytesOfStr "DISK").isPrefixOf uq then
    { db := db,
      out := QPOut.ok (bytesOfStr "DISK USAGE: "
        ++ natDec (db.ds.dataFile.size + db.ds.indexFile.size) ++ bytesOfStr " bytes"),
      sysEvents := [] }
  else if (bytesOfStr "DEL").isPrefixOf uq then
    match db.mu with
    | none => { db := db, out := QPOut.panicNilMu, sysEvents := [] }
    | some _ =>
      let opSpl := goSplit query (bytesOfStr "->")
      if opSpl.length < 2 then
        { db := db, out := QPOut.err DBErr.badSequence,
          sysEvents := [SEv.lock, SEv.unlock] }
      else
        let r := db.ds.Delete (trimSpace (opSpl.getD 1 []))
        { db := { db with ds := r.1 }, out := QPOut.ok (bytesOfStr "DEL SUCCESS"),
          sysEvents := [SEv.lock, SEv.engOp, SEv.unlock] }
  else
    { db := db, out := QPOut.err DBErr.nonexistentCommand, sysEvents := [] }

/-! ## Authentication (`StartTCPTLSListener`) -/

/-- What the connection handler does after the first line has been
base64-decoded. -/
inductive AuthOut
  | authOk
  | authFail
  | panicIdx
deriving Repr, DecidableEq

/-- The separator `strings.Split` is called with in the handler: the Go
literal is the two-character string backslash followed by the digit zero
(bytes 92 and 48), not the NUL byte. -/
def sepBackslashZero : List Nat := [92, 48]

/-- The authentication step of `StartTCPTLSListener`, applied to the
base64-decoded first line: split on `sepBackslashZero`; if the first field
differs from the configured username, write an error line and close
(`authFail`); otherwise index the second field — a runtime index-out-of-range
panic when the split produced a single field (`panicIdx`) — and compare it
with the configured password; on success (`authOk`) write the AUTH OK line and
enter the command read loop. -/
def authCheck (username password decoded : List Nat) : AuthOut :=
  let authSpl := goSplit decoded sepBackslashZero
  if authSpl.getD 0 [] ≠ username then AuthOut.authFail
  else
    match authSpl[1]? with
    | none => AuthOut.panicIdx
    | some a1 => if a1 ≠ password then AuthOut.authFail else AuthOut.authOk

/-! ## Helper lemmas -/

/-- A write whose position is at end-of-file appends the bytes and leaves the
position at the new end-of-file. -/
theorem GFile.write_at_end (f : GFile) (bs : List Nat) (h : f.pos = f.data.length) :
    (f.write bs).data = f.data ++ bs ∧ (f.write bs).pos = (f.data ++ bs).length := by
  unfold GFile.write
  by_cases hb : bs.isEmpty
  · rcases List.isEmpty_iff.mp hb with rfl
    simp [hb, h]
  · simp only [hb, if_neg, Bool.false_eq_true, not_false_iff, ite_false]
    constructor
    · simp [h, List.drop_eq_nil_of_le, List.take_of_length_le, Nat.le_add_right]
    · simp [h]

/-- `writeData` at end-of-file appends to the data file and keeps the
position at end-of-file; the index file is untouched. -/
theorem DataStructure.writeData_at_end (db : DataStructure) (bs : List Nat)
    (h : db.dataFile.pos = db.dataFile.data.length) :
    (db.writeData bs).dataFile.data = db.dataFile.data ++ bs
    ∧ (db.writeData bs).dataFile.pos = (db.writeData bs).dataFile.data.length := by
  have hw := GFile.write_at_end db.dataFile bs h
  unfold DataStructure.writeData
  exact ⟨hw.1, by rw [hw.1, hw.2]⟩

/-- When `sep` has no occurrence in `s`, `goSplit` returns the single field `s`. -/
theorem goSplit_of_no_occ (s sep : List Nat) (h : findOcc s sep = none) :
    goSplit s sep = [s] := by
  unfold goSplit goSplitF
  rw [h]

/-- A three-byte prefix determines the first three elements of a list. -/
theorem isPrefixOf_three {a b c : Nat} {l : List Nat}
    (h : List.isPrefixOf [a, b, c] l = true) : ∃ t, l = a :: b :: c :: t := by
  match l with
  | [] => simp [List.isPrefixOf] at h
  | [x] => simp [List.isPrefixOf] at h
  | [x, y] => simp [List.isPrefixOf] at h
  | x :: y :: z :: t =>
    simp only [List.isPrefixOf, Bool.and_eq_true, beq_iff_eq] at h
    exact ⟨t, by rw [h.1, h.2.1, h.2.2.1]⟩

theorem bytes_MEM : bytesOfStr "MEM" = [77, 69, 77] := by decide

theorem bytes_PUT : bytesOfStr "PUT" = [80, 85, 84] := by decide

theorem bytes_GET : bytesOfStr "GET" = [71, 69, 84] := by decide

theorem bytes_DISK : bytesOfStr "DISK" = [68, 73, 83, 75] := by decide

theorem bytes_DEL : bytesOfStr "DEL" = [68, 69, 76] := by decide

/-! ## Claim C1: update-in-place and index-before-data ordering

Concrete run, starting from an empty store: insert key `k` (byte 107) with
value `x` (120), insert key `a` (97) with value `y` (121), then `Put` key
`k` again with the longer value `xy` (120, 121). -/

def c1s1 : DataStructure := ((OpenDB [] []).Put [107] [120]).1

def c1s2 : DataStructure := (c1s1.Put [97] [121]).1

def c1s3 : DataStructure := (c1s2.Put [107] [120, 121]).1

/-- **C1.** Refuted on the code: re-`Put` of the present key 107 with a
longer value does not append a record (the data log keeps its 36 bytes) but
rewrites bytes in place at the old offset, changing byte 18 — the first
byte of the *next* record's key-length field — from 1 to 0, after which
`Get` of the neighbouring key 97 returns the corrupted value [97] instead
of [121].  Moreover, on the fresh insert of key 107 the very first
file-mutation event is a write to the *index* file: the index is mutated
before the data-log append, not after it. -/
theorem c1_put_overwrites_in_place_and_index_first :
    c1s3.dataFile.data.length = c1s2.dataFile.data.length
    ∧ c1s2.dataFile.data.getD 18 0 = 1
    ∧ c1s3.dataFile.data.getD 18 0 = 0
    ∧ (c1s2.Get [97]).2 = Except.ok [121]
    ∧ (c1s3.Get [97]).2 = Except.ok [97]
    ∧ c1s1.events.head? = some (FEv.iWrite 0 [107]) := by decide

/-! ## Claim C2: put/get round-trip

Concrete run: insert key `abc` (97, 98, 99), then insert key `xy`
(120, 121) — whose length differs — and immediately `Get` it back. -/

def c2t1 : DataStructure := ((OpenDB [] []).Put [97, 98, 99] [118]).1

def c2t2 : DataStructure := (c2t1.Put [120, 121] [50]).1

/-- **C2.** Refuted on the code: in a store already holding the
three-byte key 97, 98, 99, `Put` of the two-byte key 120, 121 succeeds,
yet the immediately following `Get` of that same key fails with
key-not-found instead of returning the value [50]: the scan reads
`len(key)` index bytes per entry, so entries of other lengths misalign
the walk, and the insert lands at a position the lookup never visits. -/
theorem c2_put_get_roundtrip_fails :
    ((OpenDB [] []).Put [97, 98, 99] [118]).2 = Except.ok ()
    ∧ (c2t1.Put [120, 121] [50]).2 = Except.ok ()
    ∧ (c2t2.Get [120, 121]).2 = Except.error DBErr.keyNotFound := by decide

/-! ## Claim C3: index sortedness

Concrete run: insert key 98, then insert the smaller key 97. -/

def c3u2 : DataStructure := ((((OpenDB [] []).Put [98] [49]).1).Put [97] [50]).1

/-- **C3.** Refuted on the code: after `Put` of key 98 then `Put` of key
97, the index file holds the entry for 98 first and the entry for 97
second — `Put` appends new entries at the end of the index file in
insertion order, so iterating entries in file order yields 98 before 97,
which is strictly *decreasing*, not increasing. -/
theorem c3_index_not_sorted :
    c3u2.indexFile.data = [98] ++ i64le 0 ++ [97] ++ i64le 18
    ∧ c3u2.indexFile.data.getD 9 0 < c3u2.indexFile.data.getD 0 0 := by decide

/-! ## Claim C4: delete of an absent key -/

def c4db : SysDB := { ds := OpenDB [] [], mu := some (), currentMemoryUsage := 0 }

/-- **C4.** Refuted on the code: `Delete` of the absent key `missing` on an
empty store returns success (`nil` error), not key-not-found — the
linear-scan `Delete` rewrites the index and reports no error when the key
was never found — and the command dispatcher, which discards `Delete`'s
return value entirely, answers the client `DEL SUCCESS` rather than an
error response. -/
theorem c4_delete_absent_reports_success :
    ((OpenDB [] []).Delete (bytesOfStr "missing")).2 = Except.ok ()
    ∧ ((OpenDB [] []).Delete (bytesOfStr "missing")).1.indexFile.data = []
    ∧ (Database.QueryParser c4db (bytesOfStr "DEL->missing")).out
        = QPOut.ok (bytesOfStr "DEL SUCCESS") := by decide

/-! ## Claim C5: `nextOffset` equals the data log's end-of-file -/

def c5s1 : DataStructure := ((OpenDB [] []).Put [107] [118]).1

/-- **C5.** Refuted on the code: after a single `Put` on a freshly opened
empty store the data log is 18 bytes long while `nextOffset` is still 0 —
the linear-scan `Put` obtains its append position from `Seek(0, SeekEnd)`
and never updates the `nextOffset` field, so the field does not track the
data log's end-of-file in reachable states. -/
theorem c5_nextoffset_stale_after_put :
    c5s1.nextOffset = 0 ∧ c5s1.dataFile.data.length = 18 ∧ (0 : Nat) ≠ 18 := by decide

/-! ## Claim C6: record encoding -/

/-- **C6** counterexample: for the one-byte key 97 and one-byte value 98
the bytes written for one record number 18, not 8 + 1 + 1 = 10: the Go
`writeDataRecord` emits a fifth field, a trailing 8-byte `int64` offset,
after the four fields the claim lists. -/
theorem c6_encoded_length_counterexample :
    ((OpenDB [] []).writeDataRecord 0 [97] [98]).dataFile.data.length = 18
    ∧ (8 + 1 + 1 : Nat) ≠ 18 := by decide

/-- **C6** (amended). Encoding one record writes exactly the five-field
layout key_len:u32, value_len:u32, key bytes, value bytes, offset:i64 and
nothing else: with the data file positioned at end-of-file, the encoded
bytes are appended and their length is exactly 16 + |key| + |value| for
every key, value and offset. -/
theorem c6_record_layout (db : DataStructure) (off : Nat) (key value : List Nat)
    (h : db.dataFile.pos = db.dataFile.data.length) :
    (db.writeDataRecord off key value).dataFile.data
      = db.dataFile.data ++ u32le key.length ++ u32le value.length
        ++ key ++ value ++ i64le off
    ∧ (db.writeDataRecord off key value).dataFile.data.length
      = db.dataFile.data.length + (16 + key.length + value.length) := by
  unfold DataStructure.writeDataRecord
  have h1 := DataStructure.writeData_at_end db (u32le key.length) h
  have h2 := DataStructure.writeData_at_end _ (u32le value.length) h1.2
  have h3 := DataStructure.writeData_at_end _ key h2.2
  have h4 := DataStructure.writeData_at_end _ value h3.2
  have h5 := DataStructure.writeData_at_end _ (i64le off) h4.2
  constructor
  · rw [h5.1, h4.1, h3.1, h2.1, h1.1]
  · rw [h5.1, h4.1, h3.1, h2.1, h1.1]
    simp only [List.length_append, u32le, i64le, List.length_cons, List.length_nil]
    omega

/-- Witness for C6: the amended layout at the concrete empty store,
offset 5, key [97] and value [98, 99]. -/
theorem c6_record_layout_witness :
    (OpenDB [] []).dataFile.pos = (OpenDB [] []).dataFile.data.length
    ∧ (((OpenDB [] []).writeDataRecord 5 [97] [98, 99]).dataFile.data
        = (OpenDB [] []).dataFile.data ++ u32le 1 ++ u32le 2
          ++ [97] ++ [98, 99] ++ i64le 5
      ∧ ((OpenDB [] []).writeDataRecord 5 [97] [98, 99]).dataFile.data.length
        = (OpenDB [] []).dataFile.data.length + (16 + 1 + 2)) :=
  ⟨rfl, c6_record_layout (OpenDB [] []) 5 [97] [98, 99] rfl⟩

/-! ## Claim C8: authentication separator -/

/-- **C8** counterexample: with username byte 117 and password byte 112,
the first line whose base64 decoding is exactly username, NUL (0x00),
password — the form the claim requires to authenticate — is rejected: the
handler splits on the two-character sequence backslash, digit zero (bytes
92, 48), finds no separator, compares the whole decoded string against the
username, and writes the error line. -/
theorem c8_nul_separator_rejected :
    authCheck [117] [112] ([117] ++ [0] ++ [112]) = AuthOut.authFail
    ∧ AuthOut.authFail ≠ AuthOut.authOk := by decide

/-- **C8** (amended). The server writes AUTH OK and enters the command
read loop if and only if the connection's first line base64-decodes to a
string whose split on the two-character sequence backslash followed by the
digit zero has the configured username as its first field and the
configured password as its second field; and the handler panics (rather
than answering) exactly when that split has the username as its only
field.  On any other decodable first line the server writes an error line
and closes the connection. -/
theorem c8_auth_backslash_zero (u p d : List Nat) :
    (authCheck u p d = AuthOut.authOk
      ↔ ((goSplit d sepBackslashZero).getD 0 [] = u
          ∧ (goSplit d sepBackslashZero)[1]? = some p))
    ∧ (authCheck u p d = AuthOut.panicIdx
      ↔ ((goSplit d sepBackslashZero).getD 0 [] = u
          ∧ (goSplit d sepBackslashZero)[1]? = none)) := by
  unfold authCheck
  by_cases h0 : (goSplit d sepBackslashZero).getD 0 [] = u
  · simp only [h0, ne_eq, not_true_eq_false, ite_false]
    cases h1 : (goSplit d sepBackslashZero)[1]? with
    | none => simp [h1]
    | some a1 =>
      by_cases h2 : a1 = p
      · simp [h1, h2]
      · simp only [h1, h2, ne_eq, not_false_iff, ite_true]
        refine ⟨⟨fun hc => absurd hc (by simp), ?_⟩,
                ⟨fun hc => absurd hc (by simp), ?_⟩⟩
        · rintro ⟨-, hs⟩
          exact absurd (Option.some.inj hs) h2
        · rintro ⟨-, hs⟩
          exact Option.noConfusion hs
  · simp only [ne_eq, h0, not_false_eq_true, ite_true]
    refine ⟨⟨fun hc => absurd hc (by simp), ?_⟩,
            ⟨fun hc => absurd hc (by simp), ?_⟩⟩
    · rintro ⟨hs, -⟩
      exact hs.elim
    · rintro ⟨hs, -⟩
      exact hs.elim

/-! ## Claims C7 and C9: dispatcher lock discipline, and the nil mutex

The dispatcher tests the upper-cased query against the verbs in source
order; the following lemmas discriminate those tests for queries whose
upper-casing starts with the bytes of PUT, GET or DEL respectively. -/

theorem memPre_putHead (t : List Nat) :
    (bytesOfStr "MEM").isPrefixOf (80 :: 85 :: 84 :: t) = false := by
  simp [bytes_MEM, List.isPrefixOf]

theorem putPre_putHead (t : List Nat) :
    (bytesOfStr "PUT").isPrefixOf (80 :: 85 :: 84 :: t) = true := by
  simp [bytes_PUT, List.isPrefixOf]

theorem memPre_getHead (t : List Nat) :
    (bytesOfStr "MEM").isPrefixOf (71 :: 69 :: 84 :: t) = false := by
  simp [bytes_MEM, List.isPrefixOf]

theorem putPre_getHead (t : List Nat) :
    (bytesOfStr "PUT").isPrefixOf (71 :: 69 :: 84 :: t) = false := by
  simp [bytes_PUT, List.isPrefixOf]

theorem getPre_getHead (t : List Nat) :
    (bytesOfStr "GET").isPrefixOf (71 :: 69 :: 84 :: t) = true := by
  simp [bytes_GET, List.isPrefixOf]

theorem memPre_delHead (t : List Nat) :
    (bytesOfStr "MEM").isPrefixOf (68 :: 69 :: 76 :: t) = false := by
  simp [bytes_MEM, List.isPrefixOf]

theorem putPre_delHead (t : List Nat) :
    (bytesOfStr "PUT").isPrefixOf (68 :: 69 :: 76 :: t) = false := by
  simp [bytes_PUT, List.isPrefixOf]

theorem getPre_delHead (t : List Nat) :
    (bytesOfStr "GET").isPrefixOf (68 :: 69 :: 76 :: t) = false := by
  simp [bytes_GET, List.isPrefixOf]

theorem diskPre_delHead (t : List Nat) :
    (bytesOfStr "DISK").isPrefixOf (68 :: 69 :: 76 :: t) = false := by
  simp [bytes_DISK, List.isPrefixOf]

theorem delPre_delHead (t : List Nat) :
    (bytesOfStr "DEL").isPrefixOf (68 :: 69 :: 76 :: t) = true := by
  simp [bytes_DEL, List.isPrefixOf]

/-- **C7.** Every PUT, GET and DEL command handled by `QueryParser` (with a
real mutex installed) emits exactly one `lock` (the `StartTransaction`
acquire) as its first lock event and exactly one `unlock` (the
`CommitTransaction`/`RollbackTransaction` release) as its last, on every
exit path — malformed-argument, engine-error and success paths alike — and
every storage-engine invocation happens strictly between the two. -/
theorem c7_lock_discipline (db : SysDB) (q : List Nat) (hmu : db.mu = some ())
    (hq : (bytesOfStr "PUT").isPrefixOf (goToUpper q)
        ∨ (bytesOfStr "GET").isPrefixOf (goToUpper q)
        ∨ (bytesOfStr "DEL").isPrefixOf (goToUpper q)) :
    ∃ mid, (Database.QueryParser db q).sysEvents = SEv.lock :: (mid ++ [SEv.unlock])
      ∧ ∀ e ∈ mid, e = SEv.engOp := by
  rcases hq with hp | hg | hd
  · rw [bytes_PUT] at hp
    obtain ⟨t, ht⟩ := isPrefixOf_three hp
    unfold Database.QueryParser
    rw [ht]
    simp only [memPre_putHead, putPre_putHead, Bool.false_eq_true, if_false, if_true, hmu]
    by_cases hlen : (goSplit q (bytesOfStr "->")).length = 3
    · simp only [hlen, ne_eq, not_true_eq_false, ite_false]
      rcases hput : (db.ds.Put (trimSpace ((goSplit q (bytesOfStr "->")).getD 1 []))
          (trimSpace ((goSplit q (bytesOfStr "->")).getD 2 []))).2 with e | v
      · exact ⟨[SEv.engOp], by simp [hput], by simp⟩
      · exact ⟨[SEv.engOp], by simp [hput], by simp⟩
    · simp only [hlen, ne_eq, not_false_eq_true, ite_true]
      exact ⟨[], rfl, by simp⟩
  · rw [bytes_GET] at hg
    obtain ⟨t, ht⟩ := isPrefixOf_three hg
    unfold Database.QueryParser
    rw [ht]
    simp only [memPre_getHead, putPre_getHead, getPre_getHead, Bool.false_eq_true,
      if_false, if_true, hmu]
    by_cases hlen : (goSplit q (bytesOfStr "->")).length < 2
    · simp only [hlen, ite_true]
      exact ⟨[], rfl, by simp⟩
    · simp only [hlen, ite_false]
      rcases hget : (db.ds.Get (trimSpace ((goSplit q (bytesOfStr "->")).getD 1 []))).2
        with e | v
      · exact ⟨[SEv.engOp], by simp [hget], by simp⟩
      · exact ⟨[SEv.engOp], by simp [hget], by simp⟩
  · rw [bytes_DEL] at hd
    obtain ⟨t, ht⟩ := isPrefixOf_three hd
    unfold Database.QueryParser
    rw [ht]
    simp only [memPre_delHead, putPre_delHead, getPre_delHead, diskPre_delHead,
      delPre_delHead, Bool.false_eq_true, if_false, if_true, hmu]
    by_cases hlen : (goSplit q (bytesOfStr "->")).length < 2
    · simp only [hlen, ite_true]
      exact ⟨[], rfl, by simp⟩
    · simp only [hlen, ite_false]
      exact ⟨[SEv.engOp], rfl, by simp⟩

def c7db : SysDB := { ds := OpenDB [] [], mu := some (), currentMemoryUsage := 0 }

/-- Witness for C7: the GET command at a concrete store with a real mutex. -/
theorem c7_lock_discipline_witness :
    c7db.mu = some ()
    ∧ ((bytesOfStr "PUT").isPrefixOf (goToUpper (bytesOfStr "GET->k"))
        ∨ (bytesOfStr "GET").isPrefixOf (goToUpper (bytesOfStr "GET->k"))
        ∨ (bytesOfStr "DEL").isPrefixOf (goToUpper (bytesOfStr "GET->k")))
    ∧ (∃ mid, (Database.QueryParser c7db (bytesOfStr "GET->k")).sysEvents
          = SEv.lock :: (mid ++ [SEv.unlock]) ∧ ∀ e ∈ mid, e = SEv.engOp) :=
  ⟨rfl, Or.inr (Or.inl (by decide)),
    c7_lock_discipline c7db (bytesOfStr "GET->k") rfl (Or.inr (Or.inl (by decide)))⟩

/-- **C9.** No statement in the source assigns `Database.Mu`, so a
`Database` built as `main` builds it carries the nil zero value; on such a
database every PUT, GET or DEL query reaches `StartTransaction`, which
dereferences the nil mutex pointer: `QueryParser` panics instead of
producing a result or an error. -/
theorem c9_nil_mutex_panics (ds : DataStructure) (m : Nat) (q : List Nat)
    (hq : (bytesOfStr "PUT").isPrefixOf (goToUpper q)
        ∨ (bytesOfStr "GET").isPrefixOf (goToUpper q)
        ∨ (bytesOfStr "DEL").isPrefixOf (goToUpper q)) :
    (Database.QueryParser { ds := ds, mu := none, currentMemoryUsage := m } q).out
      = QPOut.panicNilMu := by
  rcases hq with hp | hg | hd
  · rw [bytes_PUT] at hp
    obtain ⟨t, ht⟩ := isPrefixOf_three hp
    unfold Database.QueryParser
    rw [ht]
    simp [memPre_putHead, putPre_putHead]
  · rw [bytes_GET] at hg
    obtain ⟨t, ht⟩ := isPrefixOf_three hg
    unfold Database.QueryParser
    rw [ht]
    simp [memPre_getHead, putPre_getHead, getPre_getHead]
  · rw [bytes_DEL] at hd
    obtain ⟨t, ht⟩ := isPrefixOf_three hd
    unfold Database.QueryParser
    rw [ht]
    simp [memPre_delHead, putPre_delHead, getPre_delHead, diskPre_delHead, delPre_delHead]

/-- Witness for C9: a PUT command against the zero-value database of
`main` (empty store, nil mutex). -/
theorem c9_nil_mutex_panics_witness :
    ((bytesOfStr "PUT").isPrefixOf (goToUpper (bytesOfStr "PUT->k->v"))
        ∨ (bytesOfStr "GET").isPrefixOf (goToUpper (bytesOfStr "PUT->k->v"))
        ∨ (bytesOfStr "DEL").isPrefixOf (goToUpper (bytesOfStr "PUT->k->v")))
    ∧ (Database.QueryParser
        { ds := OpenDB [] [], mu := none, currentMemoryUsage := 0 }
        (bytesOfStr "PUT->k->v")).out = QPOut.panicNilMu :=
  ⟨Or.inl (by decide),
    c9_nil_mutex_panics (OpenDB [] []) 0 (bytesOfStr "PUT->k->v") (Or.inl (by decide))⟩

/-! ## Claim C10: non-total authentication handler -/

/-- **C10.** For any configured username containing no backslash-zero
separator, and any password, a first line that base64-decodes to exactly
the username makes the handler index the second element of a one-element
split result: a runtime index-out-of-range panic instead of an answer to
the client. -/
theorem c10_auth_panics_on_bare_username (u p : List Nat)
    (h : findOcc u sepBackslashZero = none) :
    authCheck u p u = AuthOut.panicIdx := by
  unfold authCheck
  rw [goSplit_of_no_occ u sepBackslashZero h]
  simp

/-- Witness for C10: the empty username (whose base64 encoding is the
empty first line) and password byte 112. -/
theorem c10_auth_panics_witness :
    findOcc [] sepBackslashZero = none
    ∧ authCheck [] [112] [] = AuthOut.panicIdx :=
  ⟨by decide, c10_auth_panics_on_bare_username [] [112] (by decide)⟩

end Chromo
